import Mathlib

/-
Verification of the SAGAN facies-generation code base.

The modules under verification are the PyTorch modules of
src/utils/sagan/modules.py (SelfAttention, SADiscriminator, SAGenerator),
the pixel-map conditioning generator of src/utils/conditioning.py and the
training entry point of src/gan_facies/apps/train.py.

Modelling conventions.
4-dimensional tensors are modelled by the structure T4 below: four extent
fields (batch, channels, height, width) plus a total data function over ℚ.
Floating-point arithmetic is idealised as exact rational arithmetic.
The exponential map used by torch softmax is not rational-valued, so the
softmax layers are parametrised by an arbitrary map e : ℚ → ℚ; every
theorem that needs it assumes only the one property of the exponential
that matters, strict positivity.  Learned weights are random at
construction time and are therefore passed in as parameters.  The
SpectralNorm wrapper divides a layer weight by the current power-iteration
estimate of its largest singular value; that estimate is a parameter
(sigma) here and the division is kept.  BatchNorm2d normalises each
channel by batch statistics involving a real square root; it is modelled
as an arbitrary channel-indexed map on values, which is exact about its
shape behaviour (the only aspect any verified property depends on).
-/

namespace GanFacies

/-- A 4-dimensional tensor (batch, channels, height, width): extents plus a
total data function. -/
structure T4 where
  b : ℕ
  c : ℕ
  h : ℕ
  w : ℕ
  data : ℕ → ℕ → ℕ → ℕ → ℚ

/-- torch.nn.Conv2d with square kernel k, stride s, zero padding p and
given weight (out-channel, in-channel, ky, kx) and bias. -/
def conv2d (outC k s p : ℕ) (wgt : ℕ → ℕ → ℕ → ℕ → ℚ) (bias : ℕ → ℚ)
    (x : T4) : T4 where
  b := x.b
  c := outC
  h := (x.h + 2 * p - k) / s + 1
  w := (x.w + 2 * p - k) / s + 1
  data := fun n co oy ox =>
    bias co + ∑ ci ∈ Finset.range x.c, ∑ ky ∈ Finset.range k,
      ∑ kx ∈ Finset.range k,
        (if p ≤ oy * s + ky ∧ p ≤ ox * s + kx ∧ oy * s + ky - p < x.h ∧
            ox * s + kx - p < x.w
         then x.data n ci (oy * s + ky - p) (ox * s + kx - p) * wgt co ci ky kx
         else 0)

/-- torch.nn.ConvTranspose2d with square kernel k, stride s, padding p and
given weight (in-channel, out-channel, ky, kx) and bias. -/
def convTranspose2d (outC k s p : ℕ) (wgt : ℕ → ℕ → ℕ → ℕ → ℚ)
    (bias : ℕ → ℚ) (x : T4) : T4 where
  b := x.b
  c := outC
  h := (x.h - 1) * s + k - 2 * p
  w := (x.w - 1) * s + k - 2 * p
  data := fun n co oy ox =>
    bias co + ∑ ci ∈ Finset.range x.c, ∑ iy ∈ Finset.range x.h,
      ∑ ix ∈ Finset.range x.w, ∑ ky ∈ Finset.range k, ∑ kx ∈ Finset.range k,
        (if oy + p = iy * s + ky ∧ ox + p = ix * s + kx
         then x.data n ci iy ix * wgt ci co ky kx
         else 0)

/-- torch.nn.ReLU, elementwise. -/
def relu (x : T4) : T4 where
  b := x.b
  c := x.c
  h := x.h
  w := x.w
  data := fun n c i j => max 0 (x.data n c i j)

/-- torch.nn.LeakyReLU with the given negative slope, elementwise. -/
def leakyReLU (slope : ℚ) (x : T4) : T4 where
  b := x.b
  c := x.c
  h := x.h
  w := x.w
  data := fun n c i j =>
    if x.data n c i j < 0 then slope * x.data n c i j else x.data n c i j

/-- torch.nn.BatchNorm2d, modelled as a channel-indexed map on values (the
exact batch statistics involve a real square root and play no role in any
verified property; the shape behaviour is exact). -/
def chanMap (f : ℕ → ℚ → ℚ) (x : T4) : T4 where
  b := x.b
  c := x.c
  h := x.h
  w := x.w
  data := fun n c i j => f c (x.data n c i j)

/-- torch.nn.Softmax over dim 1 (the channel axis), parametrised by the
exponential map e. -/
def softmaxDim1 (e : ℚ → ℚ) (x : T4) : T4 where
  b := x.b
  c := x.c
  h := x.h
  w := x.w
  data := fun n c i j =>
    e (x.data n c i j) / ∑ c2 ∈ Finset.range x.c, e (x.data n c2 i j)

/-- An attention map of shape (batch, queries, keys), as returned by
SelfAttention.forward. -/
structure AttnT where
  b : ℕ
  nq : ℕ
  nk : ℕ
  data : ℕ → ℕ → ℕ → ℚ

/-- The state of a SelfAttention module: the weights of its 1x1 query,
key and value convolutions, the optional output projection (present
exactly when full_values is False in the source) and the learned residual
gate gamma. -/
structure SelfAttentionWeights where
  attDim : ℕ
  vDim : ℕ
  qw : ℕ → ℕ → ℚ
  qb : ℕ → ℚ
  kw : ℕ → ℕ → ℚ
  kb : ℕ → ℚ
  vw : ℕ → ℕ → ℚ
  vb : ℕ → ℚ
  outConv : Option ((ℕ → ℕ → ℚ) × (ℕ → ℚ))
  gamma : ℚ

/-- SelfAttention.__init__ (src/utils/sagan/modules.py:37-61): the conv
weights are random draws and are passed in; att_dim defaults to
in_dim / 8; full_values selects the value dimension and the presence of
the output projection; gamma is initialised to zero. -/
def SelfAttention.init (in_dim : ℕ) (att_dim : Option ℕ) (full_values : Bool)
    (qw : ℕ → ℕ → ℚ) (qb : ℕ → ℚ) (kw : ℕ → ℕ → ℚ) (kb : ℕ → ℚ)
    (vw : ℕ → ℕ → ℚ) (vb : ℕ → ℚ) (ow : ℕ → ℕ → ℚ) (ob : ℕ → ℚ) :
    SelfAttentionWeights where
  attDim := match att_dim with
    | none => in_dim / 8
    | some a => a
  vDim := if full_values then in_dim else in_dim / 2
  qw := qw
  qb := qb
  kw := kw
  kb := kb
  vw := vw
  vb := vb
  outConv := if full_values then none else some (ow, ob)
  gamma := 0

/-- SelfAttention.forward (src/utils/sagan/modules.py:63-98).  Spatial
positions are flattened in the order of the source rearrange, dim2 major;
position p corresponds to the pixel (p / w, p % w).  Returns the blended
output (gamma times the attention output, residually added to the input)
together with the raw row-softmaxed attention matrix. -/
def SelfAttention.forward (e : ℚ → ℚ) (sa : SelfAttentionWeights)
    (x : T4) : T4 × AttnT :=
  let queries := conv2d sa.attDim 1 1 0 (fun o i _ _ => sa.qw o i) sa.qb x
  let keys := conv2d sa.attDim 1 1 0 (fun o i _ _ => sa.kw o i) sa.kb x
  let values := conv2d sa.vDim 1 1 0 (fun o i _ _ => sa.vw o i) sa.vb x
  let hw := x.h * x.w
  let unnorm : ℕ → ℕ → ℕ → ℚ := fun n p q =>
    ∑ a ∈ Finset.range sa.attDim,
      queries.data n a (p / x.w) (p % x.w) * keys.data n a (q / x.w) (q % x.w)
  let attention : ℕ → ℕ → ℕ → ℚ := fun n p q =>
    e (unnorm n p q) / ∑ q2 ∈ Finset.range hw, e (unnorm n p q2)
  let outFlat : ℕ → ℕ → ℕ → ℚ := fun n cv p =>
    ∑ q ∈ Finset.range hw,
      values.data n cv (q / x.w) (q % x.w) * attention n p q
  let out : T4 := ⟨x.b, sa.vDim, x.h, x.w,
    fun n cv i j => outFlat n cv (i * x.w + j)⟩
  let out2 : T4 := match sa.outConv with
    | some oc => conv2d x.c 1 1 0 (fun o i _ _ => oc.1 o i) oc.2 out
    | none => out
  (⟨x.b, x.c, x.h, x.w,
    fun n c i j => sa.gamma * out2.data n c i j + x.data n c i j⟩,
   ⟨x.b, hw, hw, attention⟩)

/-- The architecture configuration fields consumed by the two networks
(src/utils/sagan/modules.py reads them off model_config). -/
structure ModelConfig where
  data_size : ℕ
  z_dim : ℕ
  g_conv_dim : ℕ
  d_conv_dim : ℕ
  attn_layer_num : List ℕ
  full_values : Bool
  init_method : String

/-- The fixed resolution-to-block-count lookup
datasize_to_num_blocks = \x7b32: 4, 64: 5, 128: 6, 256: 7\x7d
(src/utils/sagan/modules.py:109 and 215); a missing key is a lookup
failure (Python KeyError), modelled by none. -/
def datasizeToNumBlocks (ds : ℕ) : Option ℕ :=
  if ds = 32 then some 4
  else if ds = 64 then some 5
  else if ds = 128 then some 6
  else if ds = 256 then some 7
  else none

/-- SAGenerator.__init__ up to the block-count lookup: construction fails
immediately with a KeyError when the resolution has no entry, otherwise
the number of blocks is the lookup result. -/
def SAGenerator.build (cfg : ModelConfig) : Except String ℕ :=
  match datasizeToNumBlocks cfg.data_size with
  | some nb => Except.ok nb
  | none => Except.error ("KeyError: " ++ toString cfg.data_size)

/-- SADiscriminator.__init__ up to the block-count lookup; identical
lookup and failure behaviour. -/
def SADiscriminator.build (cfg : ModelConfig) : Except String ℕ :=
  match datasizeToNumBlocks cfg.data_size with
  | some nb => Except.ok nb
  | none => Except.error ("KeyError: " ++ toString cfg.data_size)

/-- The learned state of SAGenerator: per-block transpose-convolution
weights and biases, the SpectralNorm singular-value estimates, the
BatchNorm2d maps, the per-block SelfAttention states, and the final
(unnormalised) transpose convolution. -/
structure GenWeights where
  convW : ℕ → ℕ → ℕ → ℕ → ℕ → ℚ
  convB : ℕ → ℕ → ℚ
  sigma : ℕ → ℚ
  bn : ℕ → ℕ → ℚ → ℚ
  attn : ℕ → SelfAttentionWeights
  lastW : ℕ → ℕ → ℕ → ℕ → ℚ
  lastB : ℕ → ℚ

/-- The channel width after generator block i:
g_conv_dim * mult halved once per further block, where
mult = 2 ^ (log2 data_size - 3) = 2 ^ (num_blocks - 2)
(src/utils/sagan/modules.py:224-240). -/
def genCurrentDim (cfg : ModelConfig) (nb i : ℕ) : ℕ :=
  cfg.g_conv_dim * 2 ^ (nb - 2) / 2 ^ (i - 1)

/-- Generator block i (SAGenerator._make_gen_block applied as in __init__):
spectral-normalised transpose convolution (kernel 4; stride 1, padding 0
on the first block, stride 2, padding 1 afterwards), BatchNorm2d, ReLU. -/
def genBlock (cfg : ModelConfig) (gw : GenWeights) (nb i : ℕ) (x : T4) : T4 :=
  if i = 1 then
    relu (chanMap (gw.bn 1) (convTranspose2d (genCurrentDim cfg nb 1) 4 1 0
      (fun ci co ky kx => gw.convW 1 ci co ky kx / gw.sigma 1) (gw.convB 1) x))
  else
    relu (chanMap (gw.bn i) (convTranspose2d (genCurrentDim cfg nb i) 4 2 1
      (fun ci co ky kx => gw.convW i ci co ky kx / gw.sigma i) (gw.convB i) x))

/-- One iteration of the generator forward loop
(src/utils/sagan/modules.py:305-309): apply block i, then self-attention
when block i is attention-augmented (make_attention[i-1], that is,
i ∈ attn_layer_num), appending its attention map. -/
def genStep (e : ℚ → ℚ) (cfg : ModelConfig) (gw : GenWeights) (nb : ℕ)
    (st : T4 × List AttnT) (i : ℕ) : T4 × List AttnT :=
  let x := genBlock cfg gw nb i st.1
  if i ∈ cfg.attn_layer_num then
    let r := SelfAttention.forward e (gw.attn i) x
    (r.1, st.2 ++ [r.2])
  else (x, st.2)

/-- SAGenerator.forward (src/utils/sagan/modules.py:287-313): reshape the
latent batch to (B, z_dim, 1, 1), run blocks 1 .. num_blocks-1 with
interleaved attention, apply the final transpose convolution to n_classes
channels, and softmax over dim 1. -/
def SAGenerator.forward (e : ℚ → ℚ) (n_classes : ℕ) (cfg : ModelConfig)
    (gw : GenWeights) (nb : ℕ) (B : ℕ) (z : ℕ → ℕ → ℚ) : T4 × List AttnT :=
  let x0 : T4 := ⟨B, cfg.z_dim, 1, 1, fun n c _ _ => z n c⟩
  let st := (List.range' 1 (nb - 1)).foldl (genStep e cfg gw nb) (x0, [])
  let y := convTranspose2d n_classes 4 2 1 gw.lastW gw.lastB st.1
  (softmaxDim1 e y, st.2)

/-- The learned state of SADiscriminator, mirroring GenWeights. -/
structure DiscWeights where
  convW : ℕ → ℕ → ℕ → ℕ → ℕ → ℚ
  convB : ℕ → ℕ → ℚ
  sigma : ℕ → ℚ
  attn : ℕ → SelfAttentionWeights
  lastW : ℕ → ℕ → ℕ → ℕ → ℚ
  lastB : ℕ → ℚ

/-- The channel width after discriminator block i: d_conv_dim doubled once
per further block (src/utils/sagan/modules.py:119-131).  Block 1 maps
n_classes to d_conv_dim and block i maps the previous width to twice it;
all blocks share kernel 4, stride 2, padding 1, so the single expression
below covers both branches of the source if/else. -/
def discCurrentDim (cfg : ModelConfig) (i : ℕ) : ℕ :=
  cfg.d_conv_dim * 2 ^ (i - 1)

/-- Discriminator block i (SADiscriminator._make_disc_block):
spectral-normalised convolution (kernel 4, stride 2, padding 1) followed
by LeakyReLU(0.1). -/
def discBlock (cfg : ModelConfig) (dw : DiscWeights) (i : ℕ) (x : T4) : T4 :=
  let wgt := fun co ci ky kx => dw.convW i co ci ky kx / dw.sigma i
  leakyReLU (1 / 10) (conv2d (discCurrentDim cfg i) 4 2 1 wgt (dw.convB i) x)

/-- One iteration of the discriminator forward loop
(src/utils/sagan/modules.py:193-197). -/
def discStep (e : ℚ → ℚ) (cfg : ModelConfig) (dw : DiscWeights)
    (st : T4 × List AttnT) (i : ℕ) : T4 × List AttnT :=
  let x := discBlock cfg dw i st.1
  if i ∈ cfg.attn_layer_num then
    let r := SelfAttention.forward e (dw.attn i) x
    (r.1, st.2 ++ [r.2])
  else (x, st.2)

/-- torch.Tensor.squeeze at the level of shapes: drop every extent equal
to 1. -/
def squeezeShape (s : List ℕ) : List ℕ := s.filter (fun d => d ≠ 1)

/-- SADiscriminator.forward (src/utils/sagan/modules.py:176-204): run
blocks 1 .. num_blocks-1 with interleaved attention, apply the final
single-channel kernel-4 convolution, squeeze, and restore a length-1
batch axis when the squeeze produced a 0-dimensional scalar.  The result
carries the final shape (as a list of extents) and the per-sample logits. -/
def SADiscriminator.forward (e : ℚ → ℚ) (cfg : ModelConfig)
    (dw : DiscWeights) (nb : ℕ) (x : T4) :
    (List ℕ × (ℕ → ℚ)) × List AttnT :=
  let st := (List.range' 1 (nb - 1)).foldl (discStep e cfg dw) (x, [])
  let y := conv2d 1 4 1 0 dw.lastW dw.lastB st.1
  let s0 := squeezeShape [y.b, y.c, y.h, y.w]
  let s := if s0.length = 0 then [1] else s0
  ((s, fun n => y.data n 0 0 0), st.2)

/-- One named parameter of a module: its number of dimensions and an
abstract stand-in for its value. -/
structure Param where
  ndim : ℕ
  value : ℚ

/-- The error message raised by init_weights on an unknown method
(src/utils/sagan/modules.py:159-161 and 269-271). -/
def unknownInitMsg (m : String) : String :=
  "Unknown init method: " ++ m ++ ". Should be one of \"default\", " ++
    "\"orthogonal\", \"glorot\", \"normal\"."

/-- The parameter loop of init_weights: every 4-dimensional parameter is
re-initialised by a fresh draw (the draw depends on the method; its index
threads through so distinct parameters get distinct draws), any other
parameter is skipped, and an unknown method raises at the first
4-dimensional parameter. -/
def initWeightsGo (draw : String → ℕ → ℚ) (method : String) :
    List Param → ℕ → Except String (List Param)
  | [], _ => Except.ok []
  | p :: rest, idx =>
    if p.ndim = 4 then
      if method = "orthogonal" ∨ method = "glorot" ∨ method = "normal" then
        match initWeightsGo draw method rest (idx + 1) with
        | Except.ok r => Except.ok ({ p with value := draw method idx } :: r)
        | Except.error s => Except.error s
      else Except.error (unknownInitMsg method)
    else
      match initWeightsGo draw method rest (idx + 1) with
      | Except.ok r => Except.ok (p :: r)
      | Except.error s => Except.error s

/-- init_weights (src/utils/sagan/modules.py:146-161, identical at
256-271): return immediately on "default", otherwise run the parameter
loop. -/
def init_weights (draw : String → ℕ → ℚ) (method : String)
    (params : List Param) : Except String (List Param) :=
  if method = "default" then Except.ok params
  else initWeightsGo draw method params 0

/-- NumPy/torch advanced-indexing assignment tensor[trips] = 1.0 on one
sample: every listed (channel, row, column) triple is set to 1, all other
cells keep their value. -/
def assignOnes (trips : List (ℕ × ℕ × ℕ)) (t : ℕ → ℕ → ℕ → ℚ) :
    ℕ → ℕ → ℕ → ℚ :=
  fun c h w => if (c, h, w) ∈ trips then 1 else t c h w

/-- The body of the per-sample loop of generate_pixel_maps
(src/utils/conditioning.py:50-58): starting from zeros, first
pixel_maps[i, classes, pixels_h, pixels_w] = 1.0 and then
pixel_maps[i, 0, pixels_h, pixels_w] = 1.0. -/
def samplePixelMap (pixels : List (ℕ × ℕ)) (classes : List ℕ) :
    ℕ → ℕ → ℕ → ℚ :=
  let m0 : ℕ → ℕ → ℕ → ℚ := fun _ _ _ => 0
  let m1 := assignOnes
    ((classes.zip pixels).map (fun q => (q.1, q.2.1, q.2.2))) m0
  assignOnes (pixels.map (fun q => (0, q.1, q.2))) m1

/-- generate_pixel_maps (src/utils/conditioning.py:12-59) on the
fixed-integer n_pixels branch.  The random draws (random.sample of
distinct coordinates and torch.randint class labels, per batch sample)
are passed in as the function draws. -/
def generate_pixel_maps (batch_size n_classes data_size : ℕ)
    (draws : ℕ → List (ℕ × ℕ) × List ℕ) : T4 where
  b := batch_size
  c := n_classes
  h := data_size
  w := data_size
  data := fun i c h w => samplePixelMap (draws i).1 (draws i).2 c h w

/-- The train entry point (src/gan_facies/apps/train.py:24-57): a missing
CUDA accelerator is a fatal error raised before anything else; then the
architecture dispatch either trains (the data loader and trainer are
external collaborators, modelled as succeeding) or raises a fatal
not-implemented error naming the architecture. -/
def train (cudaAvailable : Bool) (architecture : String) :
    Except String Unit :=
  if !cudaAvailable then
    Except.error "CUDA is not available and is required for training."
  else if architecture = "sagan" then Except.ok ()
  else if architecture = "cond_sagan" then Except.ok ()
  else
    Except.error ("Architecture \"" ++ architecture ++
      "\" is not implemented!")

/-- A batch of class-index grids of shape (batch, height, width), the
result of torch.argmax over the channel axis. -/
structure T3N where
  b : ℕ
  h : ℕ
  w : ℕ
  data : ℕ → ℕ → ℕ → ℕ

/-- torch.argmax over a channel range: the first index attaining the
maximum. -/
def argmaxChannel (C : ℕ) (f : ℕ → ℚ) : ℕ :=
  (List.range C).foldl (fun best c => if f best < f c then c else best) 0

/-- torch.argmax(out, dim=1) (src/utils/sagan/modules.py:321). -/
def argmaxDim1 (x : T4) : T3N where
  b := x.b
  h := x.h
  w := x.w
  data := fun n i j => argmaxChannel x.c (fun c => x.data n c i j)

/-- An RGB image batch; the last axis always has extent 3. -/
structure Img where
  b : ℕ
  h : ℕ
  w : ℕ
  data : ℕ → ℕ → ℕ → ℕ → ℚ

/-- The full shape of an image batch, channel-last. -/
def Img.shape (im : Img) : List ℕ := [im.b, im.h, im.w, 3]

/-- Modelled from the spec: color_data_np (the data colouring utility of
the repository, called at src/utils/sagan/modules.py:323 but whose module
src/utils/data/process.py is not among the sources) maps each class-index
grid cell to the RGB colour of its class through a fixed palette,
producing an array of shape (batch, height, width, 3). -/
def color_data_np (palette : ℕ → ℕ → ℚ) (x : T3N) : Img where
  b := x.b
  h := x.h
  w := x.w
  data := fun n i j ch => palette (x.data n i j) ch

/-- SAGenerator.generate (src/utils/sagan/modules.py:315-326): forward,
argmax-quantise over the class axis, colourise; the attention maps are
returned only when with_attn is set. -/
def SAGenerator.generate (e : ℚ → ℚ) (palette : ℕ → ℕ → ℚ) (n_classes : ℕ)
    (cfg : ModelConfig) (gw : GenWeights) (nb : ℕ) (B : ℕ)
    (z : ℕ → ℕ → ℚ) (with_attn : Bool) : Img × List AttnT :=
  let r := SAGenerator.forward e n_classes cfg gw nb B z
  let images := color_data_np palette (argmaxDim1 r.1)
  if with_attn then (images, r.2) else (images, [])

/-- Modelled from the spec: the trainer method generate_data (the trainer
module is not among the sources; its tests are) runs the generator
forward pass on a latent batch, argmax-quantises the per-pixel class
distribution, colourises to an image array, and returns both the image
batch and the list of attention maps from the forward pass; that is, the
in-source SAGenerator.generate with the attention maps kept. -/
def generate_data (e : ℚ → ℚ) (palette : ℕ → ℕ → ℚ) (n_classes : ℕ)
    (cfg : ModelConfig) (gw : GenWeights) (nb : ℕ) (B : ℕ)
    (z : ℕ → ℕ → ℚ) : Img × List AttnT :=
  SAGenerator.generate e palette n_classes cfg gw nb B z true

/-- The number of attention-augmented blocks of a network with nb blocks:
blocks 1 .. nb-1 are built and block i carries attention exactly when
i ∈ attn_layer_num (src/utils/sagan/modules.py:114-139 and 220-248). -/
def numAttentionBlocks (cfg : ModelConfig) (nb : ℕ) : ℕ :=
  ((List.range' 1 (nb - 1)).filter
    (fun i => decide (i ∈ cfg.attn_layer_num))).length

/-- The mean of a list of scalars. -/
def mean (l : List ℚ) : ℚ := l.sum / l.length

/-- Modelled from the spec: the trainer method train_discriminator (the
trainer module is not among the sources; its tests are).  With the
Wasserstein loss (the default, any adv_loss other than "hinge") the loss
record has the keys d_loss, d_loss_real and d_loss_gp, where d_loss is
the critic loss E[D(fake)] - E[D(real)] plus the gradient penalty scaled
by its coefficient; with the hinge loss the record has no
gradient-penalty entry. -/
def train_discriminator (advLoss : String) (lambdaGP : ℚ)
    (dReal dFake : List ℚ) (gp : ℚ) : List (String × ℚ) :=
  if advLoss = "hinge" then
    [("d_loss",
      mean (dReal.map (fun v => max 0 (1 - v))) +
        mean (dFake.map (fun v => max 0 (1 + v)))),
     ("d_loss_real", mean (dReal.map (fun v => max 0 (1 - v))))]
  else
    [("d_loss", mean dFake - mean dReal + lambdaGP * gp),
     ("d_loss_real", -(mean dReal)),
     ("d_loss_gp", lambdaGP * gp)]

/-- Modelled from the spec: the trainer method train_generator (the
trainer module is not among the sources; its tests are).  The generator
loss record always holds the single key g_loss, the negated mean
discriminator score on fakes, whatever the adversarial loss type. -/
def train_generator (advLoss : String) (dFake : List ℚ) :
    List (String × ℚ) :=
  [("g_loss", -(mean dFake))]

/-- A SelfAttention state with all-zero convolutions, used to instantiate
theorems at concrete inputs. -/
def trivAttn : SelfAttentionWeights where
  attDim := 0
  vDim := 1
  qw := fun _ _ => 0
  qb := fun _ => 0
  kw := fun _ _ => 0
  kb := fun _ => 0
  vw := fun _ _ => 0
  vb := fun _ => 0
  outConv := none
  gamma := 0

/-- A generator state with all-zero convolutions, used to instantiate
theorems at concrete inputs. -/
def trivGenWeights : GenWeights where
  convW := fun _ _ _ _ _ => 0
  convB := fun _ _ => 0
  sigma := fun _ => 1
  bn := fun _ _ v => v
  attn := fun _ => trivAttn
  lastW := fun _ _ _ _ => 0
  lastB := fun _ => 0

/-- A discriminator state with all-zero convolutions, used to instantiate
theorems at concrete inputs. -/
def trivDiscWeights : DiscWeights where
  convW := fun _ _ _ _ _ => 0
  convB := fun _ _ => 0
  sigma := fun _ => 1
  attn := fun _ => trivAttn
  lastW := fun _ _ _ _ => 0
  lastB := fun _ => 0

/-- A minimal valid configuration at resolution 32, used to instantiate
theorems at concrete inputs. -/
def cfg32 : ModelConfig where
  data_size := 32
  z_dim := 1
  g_conv_dim := 1
  d_conv_dim := 1
  attn_layer_num := []
  full_values := true
  init_method := "default"

lemma SelfAttention.forward_fst_b (e : ℚ → ℚ) (sa : SelfAttentionWeights)
    (x : T4) : (SelfAttention.forward e sa x).1.b = x.b := rfl

lemma SelfAttention.forward_fst_c (e : ℚ → ℚ) (sa : SelfAttentionWeights)
    (x : T4) : (SelfAttention.forward e sa x).1.c = x.c := rfl

lemma SelfAttention.forward_fst_h (e : ℚ → ℚ) (sa : SelfAttentionWeights)
    (x : T4) : (SelfAttention.forward e sa x).1.h = x.h := rfl

lemma SelfAttention.forward_fst_w (e : ℚ → ℚ) (sa : SelfAttentionWeights)
    (x : T4) : (SelfAttention.forward e sa x).1.w = x.w := rfl

lemma softmaxDim1_sum (e : ℚ → ℚ) (he : ∀ t, 0 < e t) (x : T4)
    (hc : 0 < x.c) (n i j : ℕ) :
    ∑ c ∈ Finset.range x.c, (softmaxDim1 e x).data n c i j = 1 := by
  simp only [softmaxDim1]
  rw [← Finset.sum_div]
  exact div_self (ne_of_gt (Finset.sum_pos (fun c _ => he _)
    (by simp [Finset.nonempty_range_iff]; omega)))

lemma genBlock_b (cfg : ModelConfig) (gw : GenWeights) (nb i : ℕ)
    (x : T4) : (genBlock cfg gw nb i x).b = x.b := by
  unfold genBlock
  split <;> rfl

lemma genBlock_h1 (cfg : ModelConfig) (gw : GenWeights) (nb : ℕ)
    (x : T4) (hx : x.h = 1) : (genBlock cfg gw nb 1 x).h = 4 := by
  have : (genBlock cfg gw nb 1 x).h = (x.h - 1) * 1 + 4 - 2 * 0 := by
    simp [genBlock, relu, chanMap, convTranspose2d]
  omega

lemma genBlock_w1 (cfg : ModelConfig) (gw : GenWeights) (nb : ℕ)
    (x : T4) (hx : x.w = 1) : (genBlock cfg gw nb 1 x).w = 4 := by
  have : (genBlock cfg gw nb 1 x).w = (x.w - 1) * 1 + 4 - 2 * 0 := by
    simp [genBlock, relu, chanMap, convTranspose2d]
  omega

lemma genBlock_h (cfg : ModelConfig) (gw : GenWeights) (nb i : ℕ)
    (x : T4) (hi : i ≠ 1) (hx : 1 ≤ x.h) :
    (genBlock cfg gw nb i x).h = 2 * x.h := by
  have : (genBlock cfg gw nb i x).h = (x.h - 1) * 2 + 4 - 2 * 1 := by
    simp [genBlock, relu, chanMap, convTranspose2d, hi]
  omega

lemma genBlock_w (cfg : ModelConfig) (gw : GenWeights) (nb i : ℕ)
    (x : T4) (hi : i ≠ 1) (hx : 1 ≤ x.w) :
    (genBlock cfg gw nb i x).w = 2 * x.w := by
  have : (genBlock cfg gw nb i x).w = (x.w - 1) * 2 + 4 - 2 * 1 := by
    simp [genBlock, relu, chanMap, convTranspose2d, hi]
  omega

lemma genStep_shape (e : ℚ → ℚ) (cfg : ModelConfig) (gw : GenWeights)
    (nb : ℕ) (st : T4 × List AttnT) (i : ℕ) :
    (genStep e cfg gw nb st i).1.b = (genBlock cfg gw nb i st.1).b ∧
    (genStep e cfg gw nb st i).1.h = (genBlock cfg gw nb i st.1).h ∧
    (genStep e cfg gw nb st i).1.w = (genBlock cfg gw nb i st.1).w ∧
    (genStep e cfg gw nb st i).2.length = st.2.length +
      (if i ∈ cfg.attn_layer_num then 1 else 0) := by
  unfold genStep
  by_cases hmem : i ∈ cfg.attn_layer_num <;>
    simp [hmem, SelfAttention.forward_fst_b, SelfAttention.forward_fst_h,
      SelfAttention.forward_fst_w]

lemma genLoop_spec (e : ℚ → ℚ) (cfg : ModelConfig) (gw : GenWeights)
    (nb : ℕ) (l : List ℕ) :
    (∀ i ∈ l, i ≠ 1) → ∀ (st : T4 × List AttnT), 1 ≤ st.1.h → 1 ≤ st.1.w →
    (l.foldl (genStep e cfg gw nb) st).1.b = st.1.b ∧
    (l.foldl (genStep e cfg gw nb) st).1.h = 2 ^ l.length * st.1.h ∧
    (l.foldl (genStep e cfg gw nb) st).1.w = 2 ^ l.length * st.1.w ∧
    (l.foldl (genStep e cfg gw nb) st).2.length = st.2.length +
      (l.filter (fun i => decide (i ∈ cfg.attn_layer_num))).length := by
  induction l with
  | nil => intro _ st _ _; simp
  | cons a l ih =>
    intro hne st hh hw
    have ha : a ≠ 1 := hne a (by simp)
    have hstep := genStep_shape e cfg gw nb st a
    have hsb : (genStep e cfg gw nb st a).1.b = st.1.b := by
      rw [hstep.1, genBlock_b]
    have hsh : (genStep e cfg gw nb st a).1.h = 2 * st.1.h := by
      rw [hstep.2.1, genBlock_h cfg gw nb a st.1 ha hh]
    have hsw : (genStep e cfg gw nb st a).1.w = 2 * st.1.w := by
      rw [hstep.2.2.1, genBlock_w cfg gw nb a st.1 ha hw]
    have hrec := ih (fun i hi => hne i (List.mem_cons_of_mem a hi))
      (genStep e cfg gw nb st a) (by omega) (by omega)
    rw [List.foldl_cons] at *
    refine ⟨by rw [hrec.1, hsb], ?_, ?_, ?_⟩
    · rw [hrec.2.1, hsh, List.length_cons, pow_succ]
      ring
    · rw [hrec.2.2.1, hsw, List.length_cons, pow_succ]
      ring
    · rw [hrec.2.2.2, hstep.2.2.2, List.filter_cons]
      by_cases hmem : a ∈ cfg.attn_layer_num <;> simp [hmem] <;> omega

lemma dsnb_cases (ds nb : ℕ) (h : datasizeToNumBlocks ds = some nb) :
    ds = 32 ∧ nb = 4 ∨ ds = 64 ∧ nb = 5 ∨ ds = 128 ∧ nb = 6 ∨
      ds = 256 ∧ nb = 7 := by
  unfold datasizeToNumBlocks at h
  split_ifs at h with h1 h2 h3 h4 <;> simp_all

lemma SAGenerator.forward_spec_aux (e : ℚ → ℚ) (n_classes : ℕ)
    (cfg : ModelConfig) (gw : GenWeights) (B : ℕ) (z : ℕ → ℕ → ℚ)
    (m : ℕ) :
    (SAGenerator.forward e n_classes cfg gw (m + 2) B z).1.b = B ∧
    (SAGenerator.forward e n_classes cfg gw (m + 2) B z).1.c = n_classes ∧
    (SAGenerator.forward e n_classes cfg gw (m + 2) B z).1.h = 2 ^ (m + 3) ∧
    (SAGenerator.forward e n_classes cfg gw (m + 2) B z).1.w = 2 ^ (m + 3) ∧
    (SAGenerator.forward e n_classes cfg gw (m + 2) B z).2.length =
      numAttentionBlocks cfg (m + 2) := by
  simp only [SAGenerator.forward]
  have hr : List.range' 1 (m + 2 - 1) = 1 :: List.range' 2 m := by
    have : m + 2 - 1 = m + 1 := by omega
    rw [this, List.range'_succ 1 m 1]
  rw [hr, List.foldl_cons]
  set x0 : T4 := ⟨B, cfg.z_dim, 1, 1, fun n c _ _ => z n c⟩ with hx0
  set st1 := genStep e cfg gw (m + 2) (x0, []) 1 with hst1
  have hstep := genStep_shape e cfg gw (m + 2) (x0, []) 1
  have h1b : st1.1.b = B := by rw [hst1, hstep.1, genBlock_b]
  have h1h : st1.1.h = 4 := by rw [hst1, hstep.2.1, genBlock_h1]; rfl
  have h1w : st1.1.w = 4 := by rw [hst1, hstep.2.2.1, genBlock_w1]; rfl
  have h1l : st1.2.length = if 1 ∈ cfg.attn_layer_num then 1 else 0 := by
    rw [hst1, hstep.2.2.2]; simp
  have hloopmem : ∀ i ∈ List.range' 2 m, i ≠ 1 := by
    intro i hi
    rw [List.mem_range'_1] at hi
    omega
  have hloop := genLoop_spec e cfg gw (m + 2) (List.range' 2 m) hloopmem st1
    (by omega) (by omega)
  set stf := (List.range' 2 m).foldl (genStep e cfg gw (m + 2)) st1 with hstf
  have hfh : stf.1.h = 2 ^ (m + 2) := by
    rw [hloop.2.1, h1h, List.length_range']
    rw [show (4:ℕ) = 2 ^ 2 by norm_num, ← pow_add]
  have hfw : stf.1.w = 2 ^ (m + 2) := by
    rw [hloop.2.2.1, h1w, List.length_range']
    rw [show (4:ℕ) = 2 ^ 2 by norm_num, ← pow_add]
  refine ⟨?_, rfl, ?_, ?_, ?_⟩
  · show (convTranspose2d n_classes 4 2 1 gw.lastW gw.lastB stf.1).b = B
    show stf.1.b = B
    rw [hloop.1, h1b]
  · show (stf.1.h - 1) * 2 + 4 - 2 * 1 = 2 ^ (m + 3)
    have hk : (2:ℕ) ^ (m + 3) = 2 ^ (m + 2) * 2 := by
      rw [show m + 3 = (m + 2) + 1 from rfl, pow_succ]
    have h1 : 1 ≤ (2:ℕ) ^ (m + 2) := Nat.one_le_two_pow
    rw [hfh]
    omega
  · show (stf.1.w - 1) * 2 + 4 - 2 * 1 = 2 ^ (m + 3)
    have hk : (2:ℕ) ^ (m + 3) = 2 ^ (m + 2) * 2 := by
      rw [show m + 3 = (m + 2) + 1 from rfl, pow_succ]
    have h1 : 1 ≤ (2:ℕ) ^ (m + 2) := Nat.one_le_two_pow
    rw [hfw]
    omega
  · show stf.2.length = numAttentionBlocks cfg (m + 2)
    rw [hloop.2.2.2, h1l]
    unfold numAttentionBlocks
    rw [hr, List.filter_cons]
    by_cases hmem : 1 ∈ cfg.attn_layer_num <;> simp [hmem] <;> omega

lemma SAGenerator.forward_spec (e : ℚ → ℚ) (n_classes : ℕ)
    (cfg : ModelConfig) (gw : GenWeights) (nb B : ℕ) (z : ℕ → ℕ → ℚ)
    (hnb : datasizeToNumBlocks cfg.data_size = some nb) :
    (SAGenerator.forward e n_classes cfg gw nb B z).1.b = B ∧
    (SAGenerator.forward e n_classes cfg gw nb B z).1.c = n_classes ∧
    (SAGenerator.forward e n_classes cfg gw nb B z).1.h = cfg.data_size ∧
    (SAGenerator.forward e n_classes cfg gw nb B z).1.w = cfg.data_size ∧
    (SAGenerator.forward e n_classes cfg gw nb B z).2.length =
      numAttentionBlocks cfg nb := by
  rcases dsnb_cases cfg.data_size nb hnb with ⟨hds, hn⟩ | ⟨hds, hn⟩ |
    ⟨hds, hn⟩ | ⟨hds, hn⟩ <;> subst hn
  · obtain ⟨h1, h2, h3, h4, h5⟩ :=
      SAGenerator.forward_spec_aux e n_classes cfg gw B z 2
    norm_num at h1 h2 h3 h4 h5
    rw [hds]
    exact ⟨h1, h2, h3, h4, h5⟩
  · obtain ⟨h1, h2, h3, h4, h5⟩ :=
      SAGenerator.forward_spec_aux e n_classes cfg gw B z 3
    norm_num at h1 h2 h3 h4 h5
    rw [hds]
    exact ⟨h1, h2, h3, h4, h5⟩
  · obtain ⟨h1, h2, h3, h4, h5⟩ :=
      SAGenerator.forward_spec_aux e n_classes cfg gw B z 4
    norm_num at h1 h2 h3 h4 h5
    rw [hds]
    exact ⟨h1, h2, h3, h4, h5⟩
  · obtain ⟨h1, h2, h3, h4, h5⟩ :=
      SAGenerator.forward_spec_aux e n_classes cfg gw B z 5
    norm_num at h1 h2 h3 h4 h5
    rw [hds]
    exact ⟨h1, h2, h3, h4, h5⟩

lemma discBlock_b (cfg : ModelConfig) (dw : DiscWeights) (i : ℕ)
    (x : T4) : (discBlock cfg dw i x).b = x.b := rfl

lemma discBlock_h (cfg : ModelConfig) (dw : DiscWeights) (i : ℕ)
    (x : T4) (a : ℕ) (ha : 1 ≤ a) (hx : x.h = 2 ^ a * 4) :
    (discBlock cfg dw i x).h = 2 ^ (a - 1) * 4 := by
  have hk : (2:ℕ) ^ (a - 1) * 2 = 2 ^ a := by
    rw [← pow_succ, Nat.sub_add_cancel ha]
  show (x.h + 2 * 1 - 4) / 2 + 1 = 2 ^ (a - 1) * 4
  have hc : 1 ≤ (2:ℕ) ^ (a - 1) := Nat.one_le_two_pow
  rw [hx, ← hk]
  generalize (2:ℕ) ^ (a - 1) = u at hc ⊢
  omega

lemma discBlock_w (cfg : ModelConfig) (dw : DiscWeights) (i : ℕ)
    (x : T4) (a : ℕ) (ha : 1 ≤ a) (hx : x.w = 2 ^ a * 4) :
    (discBlock cfg dw i x).w = 2 ^ (a - 1) * 4 := by
  have hk : (2:ℕ) ^ (a - 1) * 2 = 2 ^ a := by
    rw [← pow_succ, Nat.sub_add_cancel ha]
  show (x.w + 2 * 1 - 4) / 2 + 1 = 2 ^ (a - 1) * 4
  have hc : 1 ≤ (2:ℕ) ^ (a - 1) := Nat.one_le_two_pow
  rw [hx, ← hk]
  generalize (2:ℕ) ^ (a - 1) = u at hc ⊢
  omega

lemma discStep_shape (e : ℚ → ℚ) (cfg : ModelConfig) (dw : DiscWeights)
    (st : T4 × List AttnT) (i : ℕ) :
    (discStep e cfg dw st i).1.b = (discBlock cfg dw i st.1).b ∧
    (discStep e cfg dw st i).1.h = (discBlock cfg dw i st.1).h ∧
    (discStep e cfg dw st i).1.w = (discBlock cfg dw i st.1).w := by
  unfold discStep
  by_cases hmem : i ∈ cfg.attn_layer_num <;>
    simp [hmem, SelfAttention.forward_fst_b, SelfAttention.forward_fst_h,
      SelfAttention.forward_fst_w]

lemma discLoop_spec (e : ℚ → ℚ) (cfg : ModelConfig) (dw : DiscWeights)
    (l : List ℕ) :
    ∀ (st : T4 × List AttnT) (a : ℕ), st.1.h = 2 ^ a * 4 →
    st.1.w = 2 ^ a * 4 → l.length ≤ a →
    (l.foldl (discStep e cfg dw) st).1.b = st.1.b ∧
    (l.foldl (discStep e cfg dw) st).1.h = 2 ^ (a - l.length) * 4 ∧
    (l.foldl (discStep e cfg dw) st).1.w = 2 ^ (a - l.length) * 4 := by
  induction l with
  | nil => intro st a hh hw _; simpa using ⟨hh, hw⟩
  | cons i l ih =>
    intro st a hh hw hlen
    have ha : 1 ≤ a := by
      have := List.length_cons i l ▸ hlen
      omega
    have hstep := discStep_shape e cfg dw st i
    have hsb : (discStep e cfg dw st i).1.b = st.1.b := by
      rw [hstep.1, discBlock_b]
    have hsh : (discStep e cfg dw st i).1.h = 2 ^ (a - 1) * 4 := by
      rw [hstep.2.1, discBlock_h cfg dw i st.1 a ha hh]
    have hsw : (discStep e cfg dw st i).1.w = 2 ^ (a - 1) * 4 := by
      rw [hstep.2.2, discBlock_w cfg dw i st.1 a ha hw]
    have hrec := ih (discStep e cfg dw st i) (a - 1) hsh hsw
      (by simp at hlen; omega)
    rw [List.foldl_cons]
    have hexp : a - 1 - l.length = a - (i :: l).length := by
      simp; omega
    exact ⟨by rw [hrec.1, hsb], by rw [hrec.2.1, hexp],
      by rw [hrec.2.2, hexp]⟩

lemma disc_forward_shape_aux (e : ℚ → ℚ) (cfg : ModelConfig)
    (dw : DiscWeights) (k : ℕ) (x : T4) (hh : x.h = 2 ^ k * 4)
    (hw : x.w = 2 ^ k * 4) :
    (SADiscriminator.forward e cfg dw (k + 1) x).1.1 = [x.b] := by
  simp only [SADiscriminator.forward, Nat.add_sub_cancel]
  have hloop := discLoop_spec e cfg dw (List.range' 1 k) (x, []) k hh hw
    (by rw [List.length_range'])
  set stf := (List.range' 1 k).foldl (discStep e cfg dw) (x, []) with hstf
  rw [List.length_range'] at hloop
  have hfh : stf.1.h = 4 := by
    rw [hloop.2.1, Nat.sub_self, pow_zero, one_mul]
  have hfw : stf.1.w = 4 := by
    rw [hloop.2.2, Nat.sub_self, pow_zero, one_mul]
  have hfb : stf.1.b = x.b := hloop.1
  set y := conv2d 1 4 1 0 dw.lastW dw.lastB stf.1 with hy
  have hyb : y.b = x.b := hfb
  have hyc : y.c = 1 := rfl
  have hyh : y.h = 1 := by
    show (stf.1.h + 2 * 0 - 4) / 1 + 1 = 1
    omega
  have hyw : y.w = 1 := by
    show (stf.1.w + 2 * 0 - 4) / 1 + 1 = 1
    omega
  rw [hyb, hyc, hyh, hyw]
  by_cases hb1 : x.b = 1
  · simp [squeezeShape, hb1]
  · simp [squeezeShape, hb1]

lemma SADiscriminator.forward_shape (e : ℚ → ℚ) (cfg : ModelConfig)
    (dw : DiscWeights) (nb : ℕ) (x : T4)
    (hnb : datasizeToNumBlocks cfg.data_size = some nb)
    (hh : x.h = cfg.data_size) (hw : x.w = cfg.data_size) :
    (SADiscriminator.forward e cfg dw nb x).1.1 = [x.b] := by
  rcases dsnb_cases cfg.data_size nb hnb with ⟨hds, hn⟩ | ⟨hds, hn⟩ |
    ⟨hds, hn⟩ | ⟨hds, hn⟩ <;> subst hn <;> rw [hds] at hh hw
  · exact disc_forward_shape_aux e cfg dw 3 x (by rw [hh]; norm_num)
      (by rw [hw]; norm_num)
  · exact disc_forward_shape_aux e cfg dw 4 x (by rw [hh]; norm_num)
      (by rw [hw]; norm_num)
  · exact disc_forward_shape_aux e cfg dw 5 x (by rw [hh]; norm_num)
      (by rw [hw]; norm_num)
  · exact disc_forward_shape_aux e cfg dw 6 x (by rw [hh]; norm_num)
      (by rw [hw]; norm_num)

lemma trips_mem_pixels (classes : List ℕ) (pixels : List (ℕ × ℕ))
    (c h w : ℕ)
    (hm : (c, h, w) ∈ (classes.zip pixels).map (fun q => (q.1, q.2.1, q.2.2))) :
    (h, w) ∈ pixels := by
  rcases List.mem_map.mp hm with ⟨q, hq, he⟩
  have h2 : q.2 ∈ pixels := (List.of_mem_zip hq).2
  have he2 : q.2.1 = h ∧ q.2.2 = w := by
    simp only [Prod.mk.injEq] at he
    exact ⟨he.2.1, he.2.2⟩
  have : (h, w) = q.2 := by
    rw [← he2.1, ← he2.2]
  rw [this]
  exact h2

lemma samplePixelMap_eval (pixels : List (ℕ × ℕ)) (classes : List ℕ)
    (c h w : ℕ) :
    samplePixelMap pixels classes c h w =
      if (c = 0 ∧ (h, w) ∈ pixels) ∨
          (c, h, w) ∈ (classes.zip pixels).map (fun q => (q.1, q.2.1, q.2.2))
      then 1 else 0 := by
  simp only [samplePixelMap, assignOnes]
  by_cases h1 : (c, h, w) ∈ pixels.map (fun q => ((0:ℕ), q.1, q.2))
  · have hc : c = 0 ∧ (h, w) ∈ pixels := by
      rcases List.mem_map.mp h1 with ⟨q, hq, he⟩
      simp only [Prod.mk.injEq] at he
      refine ⟨he.1.symm, ?_⟩
      have : (h, w) = q := by rw [← he.2.1, ← he.2.2]
      rw [this]
      exact hq
    rw [if_pos h1, if_pos (Or.inl hc)]
  · rw [if_neg h1]
    by_cases h2 : (c, h, w) ∈ (classes.zip pixels).map
        (fun q => (q.1, q.2.1, q.2.2))
    · rw [if_pos h2, if_pos (Or.inr h2)]
    · rw [if_neg h2, if_neg ?_]
      rintro (⟨hc0, hcm⟩ | htr)
      · exact h1 (List.mem_map.mpr ⟨(h, w), hcm, by rw [hc0]⟩)
      · exact h2 htr

lemma samplePixelMap_chan0 (pixels : List (ℕ × ℕ)) (classes : List ℕ)
    (h w : ℕ) :
    samplePixelMap pixels classes 0 h w =
      if (h, w) ∈ pixels then 1 else 0 := by
  rw [samplePixelMap_eval]
  by_cases hm : (h, w) ∈ pixels
  · rw [if_pos (Or.inl ⟨rfl, hm⟩), if_pos hm]
  · rw [if_neg ?_, if_neg hm]
    rintro (⟨_, hp⟩ | htr)
    · exact hm hp
    · exact hm (trips_mem_pixels classes pixels 0 h w htr)

lemma samplePixelMap_outside (pixels : List (ℕ × ℕ)) (classes : List ℕ)
    (h w : ℕ) (hm : (h, w) ∉ pixels) (c : ℕ) :
    samplePixelMap pixels classes c h w = 0 := by
  rw [samplePixelMap_eval, if_neg ?_]
  rintro (⟨_, hp⟩ | htr)
  · exact hm hp
  · exact hm (trips_mem_pixels classes pixels c h w htr)

lemma samplePixelMap_class_one (pixels : List (ℕ × ℕ)) (classes : List ℕ)
    (t : ℕ) (ht1 : t < classes.length) (ht2 : t < pixels.length) :
    samplePixelMap pixels classes (classes.getD t 0)
      (pixels.getD t (0, 0)).1 (pixels.getD t (0, 0)).2 = 1 := by
  rw [samplePixelMap_eval, if_pos]
  right
  apply List.mem_map.mpr
  refine ⟨(classes.getD t 0, pixels.getD t (0, 0)), ?_, rfl⟩
  have hlen : t < (classes.zip pixels).length := by
    rw [List.length_zip]
    omega
  have hget : (classes.zip pixels).get ⟨t, hlen⟩ =
      (classes.get ⟨t, ht1⟩, pixels.get ⟨t, ht2⟩) := by
    simp [List.getElem_zip]
  have hmem := List.get_mem (classes.zip pixels) t hlen
  rw [hget] at hmem
  rw [List.getD_eq_getElem classes 0 ht1, List.getD_eq_getElem pixels (0, 0) ht2]
  simpa using hmem

lemma pixel_count (pixels : List (ℕ × ℕ)) (classes : List ℕ) (S k : ℕ)
    (hnd : pixels.Nodup) (hlen : pixels.length = k)
    (hb : ∀ p ∈ pixels, p.1 < S ∧ p.2 < S) :
    ((Finset.range S ×ˢ Finset.range S).filter
      (fun p => samplePixelMap pixels classes 0 p.1 p.2 = 1)).card = k := by
  have hset : (Finset.range S ×ˢ Finset.range S).filter
      (fun p => samplePixelMap pixels classes 0 p.1 p.2 = 1) =
      pixels.toFinset := by
    ext p
    simp only [Finset.mem_filter, Finset.mem_product, Finset.mem_range,
      List.mem_toFinset]
    constructor
    · rintro ⟨_, hp⟩
      rw [samplePixelMap_chan0] at hp
      by_cases hm : (p.1, p.2) ∈ pixels
      · simpa using hm
      · rw [if_neg hm] at hp
        norm_num at hp
    · intro hm
      have hb2 := hb p hm
      refine ⟨⟨hb2.1, hb2.2⟩, ?_⟩
      rw [samplePixelMap_chan0, if_pos (by simpa using hm)]
  rw [hset, List.toFinset_card_of_nodup hnd, hlen]

lemma initWeightsGo_valid (draw : String → ℕ → ℚ) (method : String)
    (hv : method = "orthogonal" ∨ method = "glorot" ∨ method = "normal") :
    ∀ (params : List Param) (idx : ℕ),
    initWeightsGo draw method params idx =
      Except.ok ((params.enumFrom idx).map
        (fun q => if q.2.ndim = 4
          then { q.2 with value := draw method q.1 } else q.2)) := by
  intro params
  induction params with
  | nil => intro idx; rfl
  | cons p rest ih =>
    intro idx
    show (if p.ndim = 4 then _ else _) = _
    by_cases hp : p.ndim = 4
    · rw [if_pos hp, if_pos hv, ih (idx + 1)]
      simp [List.enumFrom, hp]
    · rw [if_neg hp, ih (idx + 1)]
      simp [List.enumFrom, hp]

lemma initWeightsGo_invalid (draw : String → ℕ → ℚ) (method : String)
    (h1 : method ≠ "orthogonal") (h2 : method ≠ "glorot")
    (h3 : method ≠ "normal") :
    ∀ (params : List Param) (idx : ℕ), (∃ p ∈ params, p.ndim = 4) →
    initWeightsGo draw method params idx =
      Except.error (unknownInitMsg method) := by
  intro params
  induction params with
  | nil =>
    rintro idx ⟨p, hp, _⟩
    simp at hp
  | cons p rest ih =>
    rintro idx ⟨q, hq, hq4⟩
    show (if p.ndim = 4 then _ else _) = _
    by_cases hp : p.ndim = 4
    · rw [if_pos hp, if_neg (by rintro (h | h | h) <;> simp_all)]
    · rw [if_neg hp]
      have hqr : q ∈ rest := by
        rcases List.mem_cons.mp hq with hqp | hqr
        · exact absurd (hqp ▸ hq4) hp
        · exact hqr
      rw [ih (idx + 1) ⟨q, hqr, hq4⟩]


/-- C1: for every valid resolution (one with a block-count entry, that is
32, 64, 128 or 256) and every batch of latent vectors, the generator
forward pass returns a tensor whose channel count equals n_classes, whose
spatial extents both equal the configured resolution, and whose values
sum to 1 along the class (channel) axis at every pixel, the last layer
being followed by a softmax over dim 1 (only positivity of the
exponential map is used). -/
theorem generator_output_spec (e : ℚ → ℚ) (he : ∀ t, 0 < e t)
    (n_classes : ℕ) (hnc : 0 < n_classes) (cfg : ModelConfig)
    (gw : GenWeights) (nb B : ℕ) (z : ℕ → ℕ → ℚ)
    (hnb : datasizeToNumBlocks cfg.data_size = some nb) :
    (SAGenerator.forward e n_classes cfg gw nb B z).1.b = B ∧
    (SAGenerator.forward e n_classes cfg gw nb B z).1.c = n_classes ∧
    (SAGenerator.forward e n_classes cfg gw nb B z).1.h = cfg.data_size ∧
    (SAGenerator.forward e n_classes cfg gw nb B z).1.w = cfg.data_size ∧
    ∀ n i j, ∑ c ∈ Finset.range n_classes,
      (SAGenerator.forward e n_classes cfg gw nb B z).1.data n c i j = 1 := by
  obtain ⟨h1, h2, h3, h4, _⟩ :=
    SAGenerator.forward_spec e n_classes cfg gw nb B z hnb
  exact ⟨h1, h2, h3, h4, fun n i j => softmaxDim1_sum e he _ hnc n i j⟩

/-- Witness for C1 at a concrete input: resolution 32, one class, batch 1,
all-zero weights, constant exponential map. -/
theorem generator_output_spec_witness :
    (SAGenerator.forward (fun _ => 1) 1 cfg32 trivGenWeights 4 1
      (fun _ _ => 0)).1.b = 1 ∧
    (SAGenerator.forward (fun _ => 1) 1 cfg32 trivGenWeights 4 1
      (fun _ _ => 0)).1.c = 1 ∧
    (SAGenerator.forward (fun _ => 1) 1 cfg32 trivGenWeights 4 1
      (fun _ _ => 0)).1.h = 32 ∧
    (SAGenerator.forward (fun _ => 1) 1 cfg32 trivGenWeights 4 1
      (fun _ _ => 0)).1.w = 32 ∧
    ∀ n i j, ∑ c ∈ Finset.range 1,
      (SAGenerator.forward (fun _ => 1) 1 cfg32 trivGenWeights 4 1
        (fun _ _ => 0)).1.data n c i j = 1 :=
  generator_output_spec (fun _ => 1) (fun _ => one_pos) 1 one_pos cfg32
    trivGenWeights 4 1 (fun _ _ => 0) rfl

/-- C2: for every valid resolution and every input batch of shape
(B, n_classes, data_size, data_size) with B at least 1, the discriminator
forward pass returns a 1-dimensional tensor of length exactly B; in
particular a batch of size 1 yields shape (1,), never a 0-dimensional
scalar. -/
theorem discriminator_output_spec (e : ℚ → ℚ) (cfg : ModelConfig)
    (dw : DiscWeights) (nb : ℕ) (x : T4)
    (hnb : datasizeToNumBlocks cfg.data_size = some nb)
    (hb : 1 ≤ x.b) (hh : x.h = cfg.data_size) (hw : x.w = cfg.data_size) :
    (SADiscriminator.forward e cfg dw nb x).1.1 = [x.b] :=
  SADiscriminator.forward_shape e cfg dw nb x hnb hh hw

/-- Witness for C2 at a concrete input: resolution 32, batch size 1 (the
output shape is the one-extent list [1], not the empty shape). -/
theorem discriminator_output_spec_witness :
    (SADiscriminator.forward (fun _ => 1) cfg32 trivDiscWeights 4
      ⟨1, 4, 32, 32, fun _ _ _ _ => 0⟩).1.1 = [1] :=
  discriminator_output_spec (fun _ => 1) cfg32 trivDiscWeights 4
    ⟨1, 4, 32, 32, fun _ _ _ _ => 0⟩ rfl (by norm_num) rfl rfl

/-- C3: pixel-map generation with a fixed pixel count k returns a tensor
of shape (B, n_classes, data_size, data_size) in which, for each sample,
exactly k grid coordinates have the observed-mask channel (channel 0)
equal to 1, each sampled coordinate also has its assigned class channel
equal to 1, and every unsampled coordinate is zero across all channels.
The per-sample random draws (distinct coordinates and uniform class
labels) enter as the draws parameter. -/
theorem pixel_maps_spec (B n_classes data_size k : ℕ)
    (draws : ℕ → List (ℕ × ℕ) × List ℕ)
    (hlen1 : ∀ i, i < B → ((draws i).1).length = k)
    (hlen2 : ∀ i, i < B → ((draws i).2).length = k)
    (hnd : ∀ i, i < B → ((draws i).1).Nodup)
    (hbound : ∀ i, i < B → ∀ p ∈ (draws i).1,
      p.1 < data_size ∧ p.2 < data_size)
    (hcls : ∀ i, i < B → ∀ c ∈ (draws i).2, c < n_classes) :
    ((generate_pixel_maps B n_classes data_size draws).b = B ∧
     (generate_pixel_maps B n_classes data_size draws).c = n_classes ∧
     (generate_pixel_maps B n_classes data_size draws).h = data_size ∧
     (generate_pixel_maps B n_classes data_size draws).w = data_size) ∧
    ∀ i, i < B →
      ((((Finset.range data_size) ×ˢ (Finset.range data_size)).filter
        (fun p => (generate_pixel_maps B n_classes data_size draws).data
          i 0 p.1 p.2 = 1)).card = k ∧
      (∀ t, t < k →
        ((draws i).2).getD t 0 < n_classes ∧
        (generate_pixel_maps B n_classes data_size draws).data i
          (((draws i).2).getD t 0) (((draws i).1).getD t (0, 0)).1
          (((draws i).1).getD t (0, 0)).2 = 1) ∧
      (∀ h w, (h, w) ∉ (draws i).1 →
        ∀ c, (generate_pixel_maps B n_classes data_size draws).data
          i c h w = 0)) := by
  refine ⟨⟨rfl, rfl, rfl, rfl⟩, fun i hi => ⟨?_, fun t ht => ⟨?_, ?_⟩,
    fun h w hm c => ?_⟩⟩
  · exact pixel_count (draws i).1 (draws i).2 data_size k (hnd i hi)
      (hlen1 i hi) (hbound i hi)
  · have htl : t < ((draws i).2).length := by rw [hlen2 i hi]; exact ht
    apply hcls i hi
    rw [List.getD_eq_getElem ((draws i).2) 0 htl]
    exact List.get_mem ((draws i).2) t htl
  · exact samplePixelMap_class_one (draws i).1 (draws i).2 t
      (by rw [hlen2 i hi]; exact ht) (by rw [hlen1 i hi]; exact ht)
  · exact samplePixelMap_outside (draws i).1 (draws i).2 h w hm c

/-- Witness for C3 at a concrete input: one sample, two classes, a 2x2
grid, a single sampled pixel at (0, 1) with class 1; exactly one grid
coordinate carries the observed mask. -/
theorem pixel_maps_spec_witness :
    (((Finset.range 2) ×ˢ (Finset.range 2)).filter
      (fun p => (generate_pixel_maps 1 2 2
        (fun _ => ([(0, 1)], [1]))).data 0 0 p.1 p.2 = 1)).card = 1 :=
  ((pixel_maps_spec 1 2 2 1 (fun _ => ([(0, 1)], [1]))
    (fun _ _ => rfl) (fun _ _ => rfl)
    (fun _ _ => by show ([((0:ℕ), (1:ℕ))] : List (ℕ × ℕ)).Nodup; decide)
    (fun _ _ => by
      show ∀ p ∈ ([((0:ℕ), (1:ℕ))] : List (ℕ × ℕ)), p.1 < 2 ∧ p.2 < 2
      decide)
    (fun _ _ => by show ∀ c ∈ ([1] : List ℕ), c < 2; decide)).2 0
    (by norm_num)).1

/-- C4: generate_data (the trainer wrapper around the in-source generator
forward pass; the colouring step is modelled from the spec) on a batch of
B latent vectors returns an image array of shape
(B, resolution, resolution, 3) and an attention-map list whose length
equals the number of attention-augmented blocks configured for the
resolution. -/
theorem generate_data_spec (e : ℚ → ℚ) (palette : ℕ → ℕ → ℚ)
    (n_classes : ℕ) (cfg : ModelConfig) (gw : GenWeights) (nb B : ℕ)
    (z : ℕ → ℕ → ℚ)
    (hnb : datasizeToNumBlocks cfg.data_size = some nb) :
    (generate_data e palette n_classes cfg gw nb B z).1.shape =
      [B, cfg.data_size, cfg.data_size, 3] ∧
    (generate_data e palette n_classes cfg gw nb B z).2.length =
      numAttentionBlocks cfg nb := by
  obtain ⟨h1, _, h3, h4, h5⟩ :=
    SAGenerator.forward_spec e n_classes cfg gw nb B z hnb
  constructor
  · show [(SAGenerator.forward e n_classes cfg gw nb B z).1.b,
      (SAGenerator.forward e n_classes cfg gw nb B z).1.h,
      (SAGenerator.forward e n_classes cfg gw nb B z).1.w, 3] = _
    rw [h1, h3, h4]
  · show (SAGenerator.forward e n_classes cfg gw nb B z).2.length = _
    rw [h5]

/-- Witness for C4 at a concrete input: resolution 32, one class, batch 1,
all-zero weights, no attention-augmented block. -/
theorem generate_data_spec_witness :
    (generate_data (fun _ => 1) (fun _ _ => 0) 1 cfg32 trivGenWeights 4 1
      (fun _ _ => 0)).1.shape = [1, 32, 32, 3] ∧
    (generate_data (fun _ => 1) (fun _ _ => 0) 1 cfg32 trivGenWeights 4 1
      (fun _ _ => 0)).2.length = numAttentionBlocks cfg32 4 :=
  generate_data_spec (fun _ => 1) (fun _ _ => 0) 1 cfg32 trivGenWeights 4 1
    (fun _ _ => 0) rfl

/-- C5: init_weights with method "default" modifies no parameter; with a
valid non-default method it re-initialises exactly the 4-dimensional
(convolutional) parameters, leaving every other parameter unchanged; and
with a method outside the four known names it fails fast (given that some
4-dimensional parameter exists, as in any of the two networks) with an
error message identifying the invalid option. -/
theorem init_weights_spec (draw : String → ℕ → ℚ) (params : List Param)
    (method : String) :
    init_weights draw "default" params = Except.ok params ∧
    ((method = "orthogonal" ∨ method = "glorot" ∨ method = "normal") →
      init_weights draw method params = Except.ok
        ((params.enumFrom 0).map (fun q => if q.2.ndim = 4
          then { q.2 with value := draw method q.1 } else q.2))) ∧
    ((method ≠ "default" ∧ method ≠ "orthogonal" ∧ method ≠ "glorot" ∧
        method ≠ "normal") → (∃ p ∈ params, p.ndim = 4) →
      init_weights draw method params =
        Except.error (unknownInitMsg method)) := by
  refine ⟨by simp [init_weights], fun hv => ?_, fun hm hex => ?_⟩
  · have hnd : method ≠ "default" := by
      rcases hv with h | h | h <;> subst h <;> decide
    unfold init_weights
    rw [if_neg hnd]
    exact initWeightsGo_valid draw method hv params 0
  · unfold init_weights
    rw [if_neg hm.1]
    exact initWeightsGo_invalid draw method hm.2.1 hm.2.2.1 hm.2.2.2
      params 0 hex

/-- Witness for C5 at concrete inputs: a 4-dimensional and a
1-dimensional parameter; "orthogonal" re-initialises only the former,
and the unknown method "foo" is rejected with a message naming it. -/
theorem init_weights_spec_witness :
    init_weights (fun _ _ => 0) "orthogonal" [⟨4, 5⟩, ⟨1, 7⟩] =
      Except.ok [⟨4, 0⟩, ⟨1, 7⟩] ∧
    init_weights (fun _ _ => 0) "foo" [⟨4, 5⟩, ⟨1, 7⟩] =
      Except.error (unknownInitMsg "foo") := by
  constructor
  · rw [(init_weights_spec (fun _ _ => 0) [⟨4, 5⟩, ⟨1, 7⟩]
      "orthogonal").2.1 (Or.inl rfl)]
    rfl
  · exact (init_weights_spec (fun _ _ => 0) [⟨4, 5⟩, ⟨1, 7⟩] "foo").2.2
      (by refine ⟨?_, ?_, ?_, ?_⟩ <;> decide) ⟨⟨4, 5⟩, by simp, rfl⟩

/-- C6: construction of either network derives the block count from the
resolution through the fixed lookup 32 to 4, 64 to 5, 128 to 6, 256 to 7,
and any resolution outside these four makes construction fail immediately
with a lookup error (no silent fallback). -/
theorem num_blocks_lookup_spec :
    (datasizeToNumBlocks 32 = some 4 ∧ datasizeToNumBlocks 64 = some 5 ∧
     datasizeToNumBlocks 128 = some 6 ∧
     datasizeToNumBlocks 256 = some 7) ∧
    ∀ cfg : ModelConfig, cfg.data_size ∉ ([32, 64, 128, 256] : List ℕ) →
      datasizeToNumBlocks cfg.data_size = none ∧
      SAGenerator.build cfg =
        Except.error ("KeyError: " ++ toString cfg.data_size) ∧
      SADiscriminator.build cfg =
        Except.error ("KeyError: " ++ toString cfg.data_size) := by
  refine ⟨⟨rfl, rfl, rfl, rfl⟩, fun cfg hmem => ?_⟩
  simp only [List.mem_cons, List.not_mem_nil, or_false, not_or] at hmem
  have hnone : datasizeToNumBlocks cfg.data_size = none := by
    unfold datasizeToNumBlocks
    rw [if_neg hmem.1, if_neg hmem.2.1, if_neg hmem.2.2.1,
      if_neg hmem.2.2.2]
  refine ⟨hnone, ?_, ?_⟩
  · unfold SAGenerator.build
    rw [hnone]
  · unfold SADiscriminator.build
    rw [hnone]

/-- Witness for C6 at a concrete input: resolution 33 has no block-count
entry, so generator construction fails with the lookup error. -/
theorem num_blocks_lookup_spec_witness :
    SAGenerator.build ⟨33, 1, 1, 1, [], true, "default"⟩ =
      Except.error ("KeyError: " ++ toString (33 : ℕ)) :=
  ((num_blocks_lookup_spec.2 ⟨33, 1, 1, 1, [], true, "default"⟩
    (by decide)).2).1

/-- C7: for every input feature map of shape (B, C, H, W), the
SelfAttention forward pass returns an attention matrix of shape
(B, H * W, H * W) that is row-stochastic: softmax is applied over the
last (key) axis, so every row sums to 1 (only positivity of the
exponential map is used). -/
theorem attention_row_stochastic (e : ℚ → ℚ) (he : ∀ t, 0 < e t)
    (sa : SelfAttentionWeights) (x : T4) (hh : 0 < x.h) (hw : 0 < x.w) :
    (SelfAttention.forward e sa x).2.b = x.b ∧
    (SelfAttention.forward e sa x).2.nq = x.h * x.w ∧
    (SelfAttention.forward e sa x).2.nk = x.h * x.w ∧
    ∀ n p, ∑ q ∈ Finset.range (x.h * x.w),
      (SelfAttention.forward e sa x).2.data n p q = 1 := by
  refine ⟨rfl, rfl, rfl, fun n p => ?_⟩
  simp only [SelfAttention.forward]
  rw [← Finset.sum_div]
  refine div_self (ne_of_gt (Finset.sum_pos (fun q _ => he _) ?_))
  rw [Finset.nonempty_range_iff]
  exact Nat.mul_ne_zero (by omega) (by omega)

/-- Witness for C7 at a concrete input: a 1x1x1x1 feature map with the
all-zero attention state and constant exponential map. -/
theorem attention_row_stochastic_witness :
    (SelfAttention.forward (fun _ => 1) trivAttn
      ⟨1, 1, 1, 1, fun _ _ _ _ => 0⟩).2.b = 1 ∧
    (SelfAttention.forward (fun _ => 1) trivAttn
      ⟨1, 1, 1, 1, fun _ _ _ _ => 0⟩).2.nq = 1 ∧
    (SelfAttention.forward (fun _ => 1) trivAttn
      ⟨1, 1, 1, 1, fun _ _ _ _ => 0⟩).2.nk = 1 ∧
    ∀ n p, ∑ q ∈ Finset.range 1,
      (SelfAttention.forward (fun _ => 1) trivAttn
        ⟨1, 1, 1, 1, fun _ _ _ _ => 0⟩).2.data n p q = 1 :=
  attention_row_stochastic (fun _ => 1) (fun _ => one_pos) trivAttn
    ⟨1, 1, 1, 1, fun _ _ _ _ => 0⟩ one_pos one_pos

/-- C8: at startup the train entry point raises a fatal configuration
error when no CUDA accelerator is available (before any architecture
dispatch), raises a fatal not-implemented error naming the architecture
when it is neither "sagan" nor "cond_sagan", and raises in no other
startup case. -/
theorem train_entry_spec (architecture : String) :
    (∀ arch : String, train false arch =
      Except.error "CUDA is not available and is required for training.") ∧
    train true "sagan" = Except.ok () ∧
    train true "cond_sagan" = Except.ok () ∧
    (architecture ≠ "sagan" → architecture ≠ "cond_sagan" →
      train true architecture = Except.error
        ("Architecture \"" ++ architecture ++ "\" is not implemented!")) := by
  refine ⟨fun arch => rfl, rfl, rfl, fun h1 h2 => ?_⟩
  simp [train, h1, h2]

/-- Witness for C8 at a concrete input: the unknown architecture "mlp"
is rejected with the not-implemented error naming it. -/
theorem train_entry_spec_witness :
    train true "mlp" = Except.error
      ("Architecture \"" ++ "mlp" ++ "\" is not implemented!") :=
  (train_entry_spec "mlp").2.2.2 (by decide) (by decide)

/-- C9: a discriminator update under the Wasserstein loss (the default,
any adv_loss other than "hinge") yields a loss record whose key list is
exactly d_loss, d_loss_real, d_loss_gp; under the hinge loss the record
lacks the key d_loss_gp; and a generator update yields exactly the key
g_loss, regardless of loss type. -/
theorem loss_record_keys_spec (advLoss : String) (lambdaGP : ℚ)
    (dReal dFake : List ℚ) (gp : ℚ) :
    (advLoss ≠ "hinge" →
      (train_discriminator advLoss lambdaGP dReal dFake gp).map Prod.fst =
        ["d_loss", "d_loss_real", "d_loss_gp"]) ∧
    "d_loss_gp" ∉
      (train_discriminator "hinge" lambdaGP dReal dFake gp).map Prod.fst ∧
    (train_generator advLoss dFake).map Prod.fst = ["g_loss"] := by
  refine ⟨fun h => ?_, ?_, rfl⟩
  · simp [train_discriminator, h]
  · simp [train_discriminator]

/-- Witness for C9 at a concrete input: the Wasserstein branch produces
exactly the three discriminator loss keys. -/
theorem loss_record_keys_spec_witness :
    (train_discriminator "wasserstein" 10 [] [] 0).map Prod.fst =
      ["d_loss", "d_loss_real", "d_loss_gp"] :=
  (loss_record_keys_spec "wasserstein" 10 [] [] 0).1 (by decide)

/-- C10: a freshly constructed SelfAttention module has its residual gate
gamma equal to zero, so its first forward pass is the identity on the
input: the blended output equals the input at every index, for every
input shape. -/
theorem attention_init_identity (e : ℚ → ℚ) (in_dim : ℕ)
    (att_dim : Option ℕ) (full_values : Bool) (qw kw vw ow : ℕ → ℕ → ℚ)
    (qb kb vb ob : ℕ → ℚ) (x : T4) :
    (SelfAttention.init in_dim att_dim full_values qw qb kw kb vw vb
      ow ob).gamma = 0 ∧
    (SelfAttention.forward e (SelfAttention.init in_dim att_dim
      full_values qw qb kw kb vw vb ow ob) x).1.b = x.b ∧
    (SelfAttention.forward e (SelfAttention.init in_dim att_dim
      full_values qw qb kw kb vw vb ow ob) x).1.c = x.c ∧
    (SelfAttention.forward e (SelfAttention.init in_dim att_dim
      full_values qw qb kw kb vw vb ow ob) x).1.h = x.h ∧
    (SelfAttention.forward e (SelfAttention.init in_dim att_dim
      full_values qw qb kw kb vw vb ow ob) x).1.w = x.w ∧
    ∀ n c i j, (SelfAttention.forward e (SelfAttention.init in_dim att_dim
      full_values qw qb kw kb vw vb ow ob) x).1.data n c i j =
        x.data n c i j := by
  refine ⟨rfl, rfl, rfl, rfl, rfl, fun n c i j => ?_⟩
  simp only [SelfAttention.forward, SelfAttention.init, zero_mul, zero_add]


end GanFacies
